import Mathlib

/-!
Verification of the movie-script retrieval-augmented QA backend
(backend.py and the offline pipeline under codigos_procesamiento_de_scripts).

Python strings are modelled as Lean `String`, with the Python string
operations (lower, replace, split, substring containment, endswith, join)
implemented executably over `String.data : List Char`, because the claims are
settled by evaluating them on concrete inputs.  External effects (the remote
embedding / generation APIs, the FAISS index search, the file system) are
modelled as explicit parameters: an outcome value for each remote call, a
ranked result list for the vector search, and a lookup function for files.
HTTP failures are modelled as `Except Nat` values carrying the status code
that FastAPI's HTTPException would surface.
-/

/-! ## Python string primitives over List Char -/

/-- Python CPython-style lowercase of one character (ASCII range, which is all
the repository's data uses). -/
def pyLowerChar (c : Char) : Char := c.toLower

/-- Python s.lower(). -/
def pyLower (s : String) : String := String.mk (s.data.map pyLowerChar)

/-- Occurrence test used by replacement: does the list start with the pattern. -/
def startsWithC (pat s : List Char) : Bool := pat.isPrefixOf s

/-- Left-to-right non-overlapping replacement scanner, structurally recursive
on a fuel bound so that it evaluates by kernel reduction; one unit of fuel is
spent per scanned position, so fuel = length of the scanned list always
suffices and the fuel-exhausted case is never reached from replaceC. -/
def replaceCGo (old new : List Char) : Nat → List Char → List Char
  | _, [] => []
  | 0, s => s
  | fuel + 1, c :: cs =>
    match old with
    | [] => c :: cs
    | _ :: os =>
      if startsWithC old (c :: cs) then new ++ replaceCGo old new fuel (cs.drop os.length)
      else c :: replaceCGo old new fuel cs

/-- Python s.replace(old, new) over char lists; old is non-empty at every call
site in the repository (the degenerate empty-pattern case returns the input
unchanged, which no call site exercises). -/
def replaceC (old new s : List Char) : List Char := replaceCGo old new s.length s

/-- Python s.replace(old, new) on strings. -/
def pyReplace (s old new : String) : String := String.mk (replaceC old.data new.data s.data)

/-- Python substring containment, needle in hay. -/
def containsC (needle : List Char) : List Char → Bool
  | [] => needle.isEmpty
  | c :: cs => startsWithC needle (c :: cs) || containsC needle cs

/-- Python needle in hay for strings. -/
def pyContains (hay needle : String) : Bool := containsC needle.data hay.data

/-- Text before the first occurrence of the separator, or the whole list when
the separator does not occur: Python s.split(sep)[0] for non-empty sep. -/
def beforeFirst (sep : List Char) : List Char → List Char
  | [] => []
  | c :: cs => if startsWithC sep (c :: cs) then [] else c :: beforeFirst sep cs

/-- Python s.endswith(suffix). -/
def pyEndsWith (s suffix : String) : Bool := suffix.data.reverse.isPrefixOf s.data.reverse

/-! ## backend.py: data and retrieval pipeline -/

/-- Movie identifier of a chunk identifier: chunk.split('_chunk_')[0]
(backend.py lines 90, 212, 227). -/
def chunkMovie (chunk : String) : String := String.mk (beforeFirst "_chunk_".data chunk.data)

/-- The hard-coded list of ten selected movies (backend.py lines 57-68). -/
def selected_movies : List String :=
  ["supergirl", "surfer_king", "surrogates", "suspect_zero", "sweeney_todd",
   "sweet_hereafter", "sweet_smell_of_success", "swingers", "swordfish",
   "synecdoche_new_york"]

/-- Start-up validation (backend.py lines 89-92): chunks whose movie is not a
selected movie are only logged as warnings; the list returned here is the list
of chunk identifiers warned about, and start-up proceeds regardless. -/
def metadata_warnings (metadata : List String) : List String :=
  metadata.filter (fun chunk => !(selected_movies.contains (chunkMovie chunk)))

/-- Normalized display name of a movie: movie.lower().replace('underscore',' ')
.replace('-',' ') (backend.py lines 181, 187). -/
def normMovieName (movie : String) : String :=
  pyReplace (pyReplace (pyLower movie) "_" " ") "-" " "

/-- get_relevant_movies (backend.py lines 172-198).  The difflib
get_close_matches call is an external library function, modelled by the
closeMatch oracle returning at most one best match (the n=1 call). -/
def get_relevant_movies (closeMatch : String → List String → Option String)
    (query : String) (sel : List String) : List String :=
  let query_lower := pyLower query
  let exact := sel.filter (fun movie => pyContains query_lower (normMovieName movie))
  if exact.isEmpty then
    let movie_names := sel.map normMovieName
    let query_processed := pyLower (pyReplace (pyReplace query_lower "," "") "." "")
    match closeMatch query_processed movie_names with
    | none => []
    | some best =>
      (sel.zip movie_names).filterMap (fun p => if p.2 = best then some p.1 else none)
  else exact

/-- Body of get_similar_fragments (backend.py lines 205-232): the code inside
the try block, with the ranked top-k chunk identifiers (metadata entries of
the FAISS search positions) passed in as the list similar.  A raised
HTTPException is an error value carrying its status code. -/
def get_similar_fragments_body (similar : List String) (relevant_movies : List String) :
    Except Nat (List String) :=
  if relevant_movies ≠ [] then
    let filtered := similar.filter (fun chunk => relevant_movies.contains (chunkMovie chunk))
    if filtered.isEmpty then Except.error 404
    else Except.ok (filtered.take 5)
  else
    Except.ok (selected_movies.filterMap
      (fun movie => (similar.filter (fun chunk => chunkMovie chunk = movie)).head?))

/-- get_similar_fragments (backend.py lines 200-236).  The blanket
except-Exception clause at line 234 catches every exception raised inside the
try block, including the HTTPException(404) raised at line 218, and re-raises
it as HTTPException(500, "FAISS search failed: ..."). -/
def get_similar_fragments (similar : List String) (relevant_movies : List String) :
    Except Nat (List String) :=
  match get_similar_fragments_body similar relevant_movies with
  | Except.ok v => Except.ok v
  | Except.error _ => Except.error 500

/-- prepare_context (backend.py lines 238-256): concatenates the text of each
fragment file that exists, in fragment-list order, appending a newline after
each; fileText models the file system (none when the file is missing or
unreadable, in which case the fragment is skipped). -/
def prepare_context (fileText : String → Option String) (similar_fragments : List String) :
    String :=
  similar_fragments.foldl
    (fun context fragment =>
      match fileText fragment with
      | some txt => context ++ txt ++ "\n"
      | none => context) ""

/-! ## Python str.split() words and truncation -/

/-- Scanner of Python s.split() with no separator: acc holds the reversed
characters of the word currently being read; whitespace runs are discarded
and each maximal non-whitespace run is emitted as one word. -/
def wordsAux : List Char → List Char → List (List Char)
  | [], acc => if acc.isEmpty then [] else [acc.reverse]
  | c :: cs, acc =>
    if c.isWhitespace then
      (if acc.isEmpty then [] else [acc.reverse]) ++ wordsAux cs []
    else wordsAux cs (c :: acc)

/-- Python s.split() with no separator: maximal runs of non-whitespace
characters, with runs of whitespace discarded. -/
def wordsC (s : List Char) : List (List Char) := wordsAux s []

/-- Python ' '.join(words) over char lists. -/
def joinC : List (List Char) → List Char
  | [] => []
  | [w] => w
  | w :: ws => w ++ ' ' :: joinC ws

/-- truncate_context (backend.py lines 258-266): when the whitespace-separated
word count exceeds max_tokens, keep the first max_tokens words re-joined with
single spaces; otherwise return the context unchanged. -/
def truncate_context (context : String) (max_tokens : Nat) : String :=
  if (wordsC context.data).length > max_tokens then
    String.mk (joinC ((wordsC context.data).take max_tokens))
  else context

/-! ## backend.py: query request, remote calls and the query handler -/

/-- Request body of POST /query (backend.py lines 94-96): a query string and
an optional selected movie. -/
structure QueryRequest where
  query : String
  selected_movie : Option String
deriving DecidableEq

/-- Normalization applied to the request's selected_movie field (backend.py
lines 354-356): s.lower().replace(' ', 'underscore'). -/
def normSelected (s : String) : String := pyReplace (pyLower s) " " "_"

/-- Python truthiness plus membership test at backend.py line 354: the
selected_movie field is used only when it is present, non-empty after the
truthiness test, and its normalization is one of the selected movies. -/
def selectedMovieValid (req : QueryRequest) : Bool :=
  match req.selected_movie with
  | none => false
  | some s => s ≠ "" && selected_movies.contains (normSelected s)

/-- Step 1 of handle_query (backend.py lines 353-365): use the valid
selected_movie when given, otherwise run keyword extraction over the query. -/
def relevant_movies_of (closeMatch : String → List String → Option String)
    (req : QueryRequest) : List String :=
  match req.selected_movie with
  | none => get_relevant_movies closeMatch req.query selected_movies
  | some s =>
    if s ≠ "" && selected_movies.contains (normSelected s) then [normSelected s]
    else get_relevant_movies closeMatch req.query selected_movies

/-- Outcome of one requests.post call together with the parsing of its JSON
body: ok carries the decoded value of interest, httpError a 4xx/5xx status
that makes raise_for_status throw, timeout and connError the two
RequestException shapes the code distinguishes, badJson a JSONDecodeError. -/
inductive ApiOutcome (α : Type) where
  | ok (value : α)
  | httpError (code : Nat)
  | timeout
  | connError
  | badJson
deriving DecidableEq

/-- get_embedding (backend.py lines 139-170): the decoded value of a
successful call is the embeddings list of the response
(response.json().get("embeddings", [])); every failure shape, including an
empty embeddings list, is translated to HTTPException(500). -/
def get_embedding {V : Type} (resp : ApiOutcome (List V)) : Except Nat V :=
  match resp with
  | ApiOutcome.ok embeddings =>
    match embeddings with
    | [] => Except.error 500
    | e :: _ => Except.ok e
  | ApiOutcome.httpError _ => Except.error 500
  | ApiOutcome.timeout => Except.error 500
  | ApiOutcome.connError => Except.error 500
  | ApiOutcome.badJson => Except.error 500

/-- call_llm_api (backend.py lines 268-342).  genResp is the outcome of the
post to /api/generate, its ok value being json.get("response", "") (so a
missing field reads as the empty string); chatResp is the outcome of the post
to /api/chat, its ok value being json.get("message", {}).get("content", "").
The chat fallback runs exactly when raise_for_status on the generate call
threw and response.status_code == 404; a Timeout on either call is a
RequestException and lands in the 500 branches. -/
def call_llm_api (genResp : ApiOutcome String) (chatResp : ApiOutcome String) :
    Except Nat String :=
  match genResp with
  | ApiOutcome.ok answer => if answer = "" then Except.error 500 else Except.ok answer
  | ApiOutcome.httpError code =>
    if code = 404 then
      match chatResp with
      | ApiOutcome.ok answer_chat =>
        if answer_chat = "" then Except.error 500 else Except.ok answer_chat
      | _ => Except.error 500
    else Except.error 500
  | ApiOutcome.timeout => Except.error 500
  | ApiOutcome.connError => Except.error 500
  | ApiOutcome.badJson => Except.error 500

/-- External world of one /query request: the difflib oracle, the embedding
API outcome, the FAISS top-k search (ranked chunk identifiers for the query
embedding, already mapped through the metadata list), the script-chunk file
system, and the generation/chat API outcomes as functions of the prompt
posted to them. -/
structure QueryEnv (V : Type) where
  closeMatch : String → List String → Option String
  embedResp : ApiOutcome (List V)
  search : V → List String
  fileText : String → Option String
  genResp : String → ApiOutcome String
  chatResp : String → ApiOutcome String

/-- Prompt template of backend.py line 384. -/
def queryPrompt (context query : String) : String :=
  "Context: " ++ context ++ "\n\nQuestion: " ++ query ++ "\nAnswer:"

/-- handle_query (backend.py lines 344-397).  Steps: relevant-movie selection,
query embedding, similar-fragment retrieval, context assembly (500 when
empty), truncation to 2000 words, prompt templating, LLM call; the answer is
returned as the value of the answer field of the response, modelled as the ok
value.  The outer try re-raises HTTPException unchanged, so the translated
status codes of the steps pass through. -/
def handle_query {V : Type} (env : QueryEnv V) (req : QueryRequest) : Except Nat String :=
  match get_embedding env.embedResp with
  | Except.error e => Except.error e
  | Except.ok query_embedding =>
    match get_similar_fragments (env.search query_embedding)
        (relevant_movies_of env.closeMatch req) with
    | Except.error e => Except.error e
    | Except.ok similar_fragments =>
      if prepare_context env.fileText similar_fragments = "" then Except.error 500
      else
        match call_llm_api
            (env.genResp (queryPrompt
              (truncate_context (prepare_context env.fileText similar_fragments) 2000)
              req.query))
            (env.chatResp (queryPrompt
              (truncate_context (prepare_context env.fileText similar_fragments) 2000)
              req.query)) with
        | Except.error e => Except.error e
        | Except.ok answer => Except.ok answer

/-- get_status (backend.py lines 122-130): returns status "running" together
with the hard-coded selected_movies list. -/
def get_status : String × List String := ("running", selected_movies)

/-- Distinct movie identifiers occurring in a metadata list.  Modelled from
the spec wording "the metadata's distinct movie identifiers (the prefixes
before '_chunk_' of the metadata entries)", for comparison with what
get_status actually returns. -/
def metadataMovies (metadata : List String) : List String :=
  (metadata.map chunkMovie).dedup

/-! ## Offline pipeline: create_vector_db.py -/

/-- load_embeddings (create_vector_db.py lines 6-15).  The directory listing
is a list of (filename, decoded embedding value) pairs; the loop accumulates,
for each filename ending in .json and in listing order, the embedding into
the vectors list and the filename stripped of .json into the metadata list. -/
def load_embeddings {α : Type} (dir : List (String × α)) : List α × List String :=
  dir.foldl
    (fun acc f =>
      if pyEndsWith f.1 ".json" then
        (acc.1 ++ [f.2], acc.2 ++ [pyReplace f.1 ".json" ""])
      else acc)
    ([], [])

/-- Files of the listing that the loop keeps. -/
def jsonFiles {α : Type} (dir : List (String × α)) : List (String × α) :=
  dir.filter (fun f => pyEndsWith f.1 ".json")

/-- FAISS IndexFlatL2.add: vectors are appended to the index in order, so the
vector at index position i of the built index is vectors[i]
(create_vector_db.py lines 22-23, starting from an empty index). -/
def build_index {α : Type} (vectors : List α) : List α := [] ++ vectors

/-! ## Offline pipeline: generate_embeddings_online_request.py -/

/-- MAX_RETRIES (generate_embeddings_online_request.py line 10). -/
def MAX_RETRIES : Nat := 3

/-- Outcome of one embedding request attempt in the offline generator: ok is
a 200 with the decoded embeddings list, rateLimited a 429, httpOther any
other status, and the remaining shapes the three caught exceptions. -/
inductive EmbOutcome (α : Type) where
  | ok (embeddings : List α)
  | rateLimited
  | httpOther (code : Nat)
  | timeout
  | reqError
  | jsonError
deriving DecidableEq

/-- Successful attempt test. -/
def EmbOutcome.isOk {α : Type} : EmbOutcome α → Bool
  | EmbOutcome.ok _ => true
  | _ => false

/-- Retry loop of generate_embedding (generate_embeddings_online_request.py
lines 26-54), one recursive step per loop iteration.  attempt is the loop
counter, fuel the remaining iterations.  Returns the result, the number of
requests sent, and the list of sleep durations (seconds) performed: a
rate-limited attempt sleeps 5 and then the common end-of-iteration 1, every
other failed attempt sleeps the common 1, and a successful attempt returns
without sleeping. -/
def generate_embedding_go {α : Type} (resp : Nat → EmbOutcome α) :
    Nat → Nat → Option (List α) × Nat × List Nat
  | _, 0 => (none, 0, [])
  | attempt, fuel + 1 =>
    match resp attempt with
    | EmbOutcome.ok embeddings => (some embeddings, 1, [])
    | EmbOutcome.rateLimited =>
      let r := generate_embedding_go resp (attempt + 1) fuel
      (r.1, r.2.1 + 1, 5 :: 1 :: r.2.2)
    | _ =>
      let r := generate_embedding_go resp (attempt + 1) fuel
      (r.1, r.2.1 + 1, 1 :: r.2.2)

/-- generate_embedding (generate_embeddings_online_request.py lines 20-54):
result of the retry loop over attempts 1..MAX_RETRIES; None after the last
failed attempt. -/
def generate_embedding {α : Type} (resp : Nat → EmbOutcome α) : Option (List α) :=
  (generate_embedding_go resp 1 MAX_RETRIES).1

/-- Number of requests generate_embedding sends. -/
def requests_made {α : Type} (resp : Nat → EmbOutcome α) : Nat :=
  (generate_embedding_go resp 1 MAX_RETRIES).2.1

/-- Sleep durations generate_embedding performs, in order. -/
def sleeps_made {α : Type} (resp : Nat → EmbOutcome α) : List Nat :=
  (generate_embedding_go resp 1 MAX_RETRIES).2.2

/-- Per-file job of process_chunks (generate_embeddings_online_request.py
lines 62-87): a file is processed when its name contains "chunk", ends in
.txt and its output .json is not already present; the embedding is saved only
when generate_embedding returned a value that is truthy in Python, i.e. a
non-empty list.  Returns the saved (output filename, embeddings) pair, or
none when the file is skipped or its job failed. -/
def process_file {α : Type} (resp : Nat → EmbOutcome α) (existing : List String)
    (filename : String) : Option (String × List α) :=
  if pyContains filename "chunk" && pyEndsWith filename ".txt" then
    if existing.contains (filename ++ ".json") then none
    else
      match generate_embedding resp with
      | some embeddings => if embeddings.isEmpty then none else
          some (filename ++ ".json", embeddings)
      | none => none
  else none

/-- process_chunks (generate_embeddings_online_request.py lines 56-89): the
sequential loop over the directory listing; each iteration runs the per-file
job and continues with the remaining files whatever its outcome.  resp gives
each filename its own sequence of attempt outcomes. -/
def process_chunks {α : Type} (resp : String → Nat → EmbOutcome α) (existing : List String) :
    List String → List (String × List α)
  | [] => []
  | filename :: rest =>
    match process_file (resp filename) existing filename with
    | some saved => saved :: process_chunks resp existing rest
    | none => process_chunks resp existing rest

/-! ## Helper lemmas -/

/-- Unfolding of get_similar_fragments when the relevant-movie filter applies
and some chunk survives it. -/
theorem get_similar_fragments_filtered (similar rm frags : List String)
    (hrm : rm ≠ []) (hok : get_similar_fragments similar rm = Except.ok frags) :
    frags = (similar.filter (fun chunk => rm.contains (chunkMovie chunk))).take 5 := by
  unfold get_similar_fragments get_similar_fragments_body at hok
  rw [if_pos hrm] at hok
  by_cases hf : (similar.filter (fun chunk => rm.contains (chunkMovie chunk))).isEmpty
  · rw [if_pos hf] at hok
    exact absurd hok (by simp)
  · rw [if_neg hf] at hok
    exact (Except.ok.injEq _ _).mp hok.symm

/-- Unfolding of get_similar_fragments when no relevant movie was identified. -/
theorem get_similar_fragments_unfiltered (similar frags : List String)
    (hok : get_similar_fragments similar [] = Except.ok frags) :
    frags = selected_movies.filterMap
      (fun movie => (similar.filter (fun chunk => chunkMovie chunk = movie)).head?) := by
  unfold get_similar_fragments get_similar_fragments_body at hok
  rw [if_neg (by simp)] at hok
  exact (Except.ok.injEq _ _).mp hok.symm

/-! ## Claim C3 -/

/-- C3: when the relevant-movie set is non-empty and no top-k chunk belongs to
any of its movies, the body of get_similar_fragments raises status 404, but
the enclosing blanket exception handler re-raises it as status 500, so the
/query handler fails with 500 rather than the 404 the claim and the code's own
warning log intend; no answer is produced from unrelated context. -/
theorem c3_no_matching_chunk_status :
    get_similar_fragments_body ["swordfish_chunk_0"] ["supergirl"] = Except.error 404 ∧
    get_similar_fragments ["swordfish_chunk_0"] ["supergirl"] = Except.error 500 :=
  ⟨rfl, rfl⟩

/-! ## Claim C7 -/

/-- C7 counterexample: a metadata list containing a single supergirl chunk
passes start-up validation without warnings, yet GET /status returns the
hard-coded ten-movie list, which differs from the distinct movie identifiers
occurring in that metadata. -/
theorem c7_counterexample :
    metadata_warnings ["supergirl_chunk_0"] = [] ∧
    get_status.2 ≠ metadataMovies ["supergirl_chunk_0"] := by
  exact ⟨rfl, by decide⟩

/-- C7 amended: GET /status always returns the liveness status "running"
together with the hard-coded selected_movies list, independent of the loaded
metadata; that list equals the metadata's distinct movie identifiers exactly
when the metadata happens to cover the ten selected movies in this order and
no others. -/
theorem c7_status_returns_fixed_list (metadata : List String)
    (h : metadataMovies metadata = selected_movies) :
    get_status.1 = "running" ∧ get_status.2 = selected_movies ∧
    get_status.2 = metadataMovies metadata := by
  refine ⟨rfl, rfl, ?_⟩
  rw [h]
  rfl

/-- C7 witness: the amended theorem applied to a metadata list holding one
chunk per selected movie. -/
theorem c7_status_returns_fixed_list_witness :
    get_status.2 = metadataMovies
      ["supergirl_chunk_0", "surfer_king_chunk_0", "surrogates_chunk_0",
       "suspect_zero_chunk_0", "sweeney_todd_chunk_0", "sweet_hereafter_chunk_0",
       "sweet_smell_of_success_chunk_0", "swingers_chunk_0", "swordfish_chunk_0",
       "synecdoche_new_york_chunk_0"] :=
  (c7_status_returns_fixed_list _ (by decide)).2.2

/-! ## Claim C6 -/

/-- C6 counterexample: a timeout of the embedding call is translated to
status 500, not the 504 the claim states; the code contains no 504 at all. -/
theorem c6_counterexample :
    get_embedding (ApiOutcome.timeout : ApiOutcome (List Nat)) = Except.error 500 ∧
    (500 : Nat) ≠ 504 :=
  ⟨rfl, by decide⟩

/-- C6 amended: every upstream remote-call failure of the /query pipeline's
two remote calls (embedding and generation/chat) is caught at the point of
the call and re-surfaced with translated HTTP status 500 — including
timeouts, HTTP error statuses, malformed JSON, and empty or missing results;
the code never produces 504. -/
theorem c6_upstream_failures_become_500 :
    (∀ (V : Type) (resp : ApiOutcome (List V)) (e : Nat),
        get_embedding resp = Except.error e → e = 500) ∧
    (∀ (genResp chatResp : ApiOutcome String) (e : Nat),
        call_llm_api genResp chatResp = Except.error e → e = 500) := by
  constructor
  · intro V resp e h
    cases resp with
    | ok embeddings =>
      cases embeddings with
      | nil => simpa [get_embedding] using h.symm
      | cons a l => simp [get_embedding] at h
    | httpError code => simpa [get_embedding] using h.symm
    | timeout => simpa [get_embedding] using h.symm
    | connError => simpa [get_embedding] using h.symm
    | badJson => simpa [get_embedding] using h.symm
  · intro genResp chatResp e h
    cases genResp with
    | ok answer =>
      by_cases ha : answer = ""
      · simp [call_llm_api, ha] at h
        omega
      · simp [call_llm_api, ha] at h
    | httpError code =>
      by_cases hc : code = 404
      · subst hc
        cases chatResp with
        | ok answer_chat =>
          by_cases ha : answer_chat = ""
          · simp [call_llm_api, ha] at h
            omega
          · simp [call_llm_api, ha] at h
        | httpError c2 => simpa [call_llm_api] using h.symm
        | timeout => simpa [call_llm_api] using h.symm
        | connError => simpa [call_llm_api] using h.symm
        | badJson => simpa [call_llm_api] using h.symm
      · simpa [call_llm_api, hc] using h.symm
    | timeout => simpa [call_llm_api] using h.symm
    | connError => simpa [call_llm_api] using h.symm
    | badJson => simpa [call_llm_api] using h.symm

/-- C6 witness: the amended theorem applied to the embedding call timing out. -/
theorem c6_upstream_failures_become_500_witness : (500 : Nat) = 500 :=
  c6_upstream_failures_become_500.1 Nat ApiOutcome.timeout 500 rfl

/-! ## Claim C10 -/

/-- C10: the fragment count is bounded: with a non-empty movie filter the
result is the first five fragments of the filtered top-k list (hence at most
5), and with no relevant movie it is the highest-ranked chunk of each
selected movie that occurs among the top-k results, one per movie (hence at
most 10). -/
theorem c10_fragment_count_bounds :
    (∀ (similar rm frags : List String), rm ≠ [] →
        get_similar_fragments similar rm = Except.ok frags →
        frags = (similar.filter (fun chunk => rm.contains (chunkMovie chunk))).take 5 ∧
        frags.length ≤ 5) ∧
    (∀ (similar frags : List String),
        get_similar_fragments similar [] = Except.ok frags →
        frags = selected_movies.filterMap
          (fun movie => (similar.filter (fun chunk => chunkMovie chunk = movie)).head?) ∧
        frags.length ≤ 10) := by
  constructor
  · intro similar rm frags hrm hok
    have he := get_similar_fragments_filtered similar rm frags hrm hok
    exact ⟨he, he ▸ List.length_take_le 5 _⟩
  · intro similar frags hok
    have he := get_similar_fragments_unfiltered similar frags hok
    refine ⟨he, ?_⟩
    rw [he]
    exact Nat.le_trans (List.length_filterMap_le _ _) (by decide)

/-- C10 witness: the theorem applied to a filtered query over one ranked
chunk and to an unfiltered query over the same list. -/
theorem c10_fragment_count_bounds_witness :
    (["swordfish_chunk_0"] : List String) =
      ((["swordfish_chunk_0"] : List String).filter
        (fun chunk => (["swordfish"] : List String).contains (chunkMovie chunk))).take 5 ∧
    (["swordfish_chunk_0"] : List String).length ≤ 5 :=
  c10_fragment_count_bounds.1 ["swordfish_chunk_0"] ["swordfish"] ["swordfish_chunk_0"]
    (by decide) rfl

/-! ## Claim C5 -/

/-- C5: call_llm_api consults the chat endpoint's outcome only when the
generation call returned HTTP 404 (first conjunct: for any other generation
outcome the result is independent of the chat outcome); a successful
generation answer is returned as-is; on a 404 the chat outcome alone decides
the result; and the /query handler returns the answer produced by
call_llm_api verbatim as the ok value (the answer field). -/
theorem c5_generate_then_chat_fallback :
    (∀ (g c c' : ApiOutcome String), g ≠ ApiOutcome.httpError 404 →
        call_llm_api g c = call_llm_api g c') ∧
    (∀ (a : String) (c : ApiOutcome String), a ≠ "" →
        call_llm_api (ApiOutcome.ok a) c = Except.ok a) ∧
    (∀ (a : String), a ≠ "" →
        call_llm_api (ApiOutcome.httpError 404) (ApiOutcome.ok a) = Except.ok a) ∧
    (∀ (c : ApiOutcome String), (∀ a, c ≠ ApiOutcome.ok a) →
        call_llm_api (ApiOutcome.httpError 404) c = Except.error 500) ∧
    (∀ (V : Type) (env : QueryEnv V) (req : QueryRequest) (a : String),
        handle_query env req = Except.ok a →
        ∃ prompt, call_llm_api (env.genResp prompt) (env.chatResp prompt) = Except.ok a) := by
  refine ⟨?_, ?_, ?_, ?_, ?_⟩
  · intro g c c' hg
    cases g with
    | ok answer => rfl
    | httpError code =>
      have hc : code ≠ 404 := fun h => hg (by rw [h])
      simp [call_llm_api, hc]
    | timeout => rfl
    | connError => rfl
    | badJson => rfl
  · intro a c ha
    simp [call_llm_api, ha]
  · intro a ha
    simp [call_llm_api, ha]
  · intro c hc
    cases c with
    | ok answer => exact absurd rfl (hc answer)
    | httpError c2 => rfl
    | timeout => rfl
    | connError => rfl
    | badJson => rfl
  · intro V env req a h
    unfold handle_query at h
    split at h
    · simp at h
    · split at h
      · simp at h
      · split at h
        · simp at h
        · split at h
          · simp at h
          · rename_i ans hcall
            exact ⟨_, hcall.trans h⟩

/-- C5 witness: the first conjunct applied to a successful generation call,
whose result is the same whatever the chat endpoint would have answered. -/
theorem c5_generate_then_chat_fallback_witness :
    call_llm_api (ApiOutcome.ok "A") ApiOutcome.timeout =
      call_llm_api (ApiOutcome.ok "A") ApiOutcome.badJson :=
  c5_generate_then_chat_fallback.1 (ApiOutcome.ok "A") ApiOutcome.timeout ApiOutcome.badJson
    (by decide)

/-! ## Claim C4 -/

/-- Closed form of the load_embeddings accumulator loop. -/
theorem load_embeddings_foldl {α : Type} (dir : List (String × α)) (acc1 : List α)
    (acc2 : List String) :
    dir.foldl
      (fun acc f =>
        if pyEndsWith f.1 ".json" then
          (acc.1 ++ [f.2], acc.2 ++ [pyReplace f.1 ".json" ""])
        else acc)
      (acc1, acc2) =
      (acc1 ++ (jsonFiles dir).map Prod.snd,
       acc2 ++ (jsonFiles dir).map (fun f => pyReplace f.1 ".json" "")) := by
  induction dir generalizing acc1 acc2 with
  | nil => simp [jsonFiles]
  | cons f fs ih =>
    by_cases hf : pyEndsWith f.1 ".json"
    · simp only [List.foldl_cons, hf, if_true]
      rw [ih]
      simp [jsonFiles, List.filter_cons, hf]
    · simp only [List.foldl_cons, hf, if_false]
      rw [ih]
      simp [jsonFiles, List.filter_cons, hf]

/-- Both artifacts of load_embeddings are the same filtered listing, mapped. -/
theorem load_embeddings_eq {α : Type} (dir : List (String × α)) :
    load_embeddings dir =
      ((jsonFiles dir).map Prod.snd,
       (jsonFiles dir).map (fun f => pyReplace f.1 ".json" "")) := by
  unfold load_embeddings
  simpa using load_embeddings_foldl dir [] []

/-- C4: the offline index build is 1:1 and order-preserving: for every
position i, the vector at position i of the built index and the metadata
entry at position i come from the same listed .json file — the vector is that
file's embedding, and the metadata entry is that file's name stripped of the
.json suffix — and the two artifacts have equal length. -/
theorem c4_index_metadata_aligned {α : Type} (dir : List (String × α)) (i : Nat) :
    (build_index (load_embeddings dir).1)[i]? = ((jsonFiles dir)[i]?).map Prod.snd ∧
    ((load_embeddings dir).2)[i]? =
      ((jsonFiles dir)[i]?).map (fun f => pyReplace f.1 ".json" "") ∧
    (load_embeddings dir).1.length = (load_embeddings dir).2.length := by
  rw [load_embeddings_eq]
  refine ⟨?_, ?_, ?_⟩
  · simp [build_index, List.getElem?_map]
  · simp [List.getElem?_map]
  · simp

/-! ## Claim C9 -/

/-- Request-count bound of the retry loop: at most fuel requests are sent. -/
theorem generate_embedding_go_requests {α : Type} (resp : Nat → EmbOutcome α)
    (fuel attempt : Nat) :
    (generate_embedding_go resp attempt fuel).2.1 ≤ fuel := by
  induction fuel generalizing attempt with
  | zero => simp [generate_embedding_go]
  | succ f ih =>
    cases h : resp attempt with
    | ok e => simp [generate_embedding_go, h]
    | rateLimited =>
      simp only [generate_embedding_go, h]
      exact Nat.succ_le_succ (ih (attempt + 1))
    | httpOther c =>
      simp only [generate_embedding_go, h]
      exact Nat.succ_le_succ (ih (attempt + 1))
    | timeout =>
      simp only [generate_embedding_go, h]
      exact Nat.succ_le_succ (ih (attempt + 1))
    | reqError =>
      simp only [generate_embedding_go, h]
      exact Nat.succ_le_succ (ih (attempt + 1))
    | jsonError =>
      simp only [generate_embedding_go, h]
      exact Nat.succ_le_succ (ih (attempt + 1))

/-- When every attempt in the retried window fails, the loop yields none. -/
theorem generate_embedding_go_none {α : Type} (resp : Nat → EmbOutcome α)
    (fuel attempt : Nat)
    (hfail : ∀ k, attempt ≤ k → k < attempt + fuel → (resp k).isOk = false) :
    (generate_embedding_go resp attempt fuel).1 = none := by
  induction fuel generalizing attempt with
  | zero => simp [generate_embedding_go]
  | succ f ih =>
    have h0 : (resp attempt).isOk = false := hfail attempt (Nat.le_refl _) (by omega)
    have hrec := ih (attempt + 1) (fun k hk1 hk2 => hfail k (by omega) (by omega))
    cases h : resp attempt with
    | ok e => rw [h] at h0; simp [EmbOutcome.isOk] at h0
    | rateLimited => simpa [generate_embedding_go, h] using hrec
    | httpOther c => simpa [generate_embedding_go, h] using hrec
    | timeout => simpa [generate_embedding_go, h] using hrec
    | reqError => simpa [generate_embedding_go, h] using hrec
    | jsonError => simpa [generate_embedding_go, h] using hrec

/-- Every sleep the retry loop performs lasts 1 or 5 seconds. -/
theorem generate_embedding_go_sleeps {α : Type} (resp : Nat → EmbOutcome α)
    (fuel attempt : Nat) :
    ∀ s ∈ (generate_embedding_go resp attempt fuel).2.2, s = 1 ∨ s = 5 := by
  induction fuel generalizing attempt with
  | zero => simp [generate_embedding_go]
  | succ f ih =>
    intro s hs
    cases h : resp attempt with
    | ok e => rw [generate_embedding_go, h] at hs; simp at hs
    | rateLimited =>
      rw [generate_embedding_go, h] at hs
      simp only [List.mem_cons] at hs
      rcases hs with h1 | h1 | h1
      · exact Or.inr h1
      · exact Or.inl h1
      · exact ih (attempt + 1) s h1
    | httpOther c =>
      rw [generate_embedding_go, h] at hs
      simp only [List.mem_cons] at hs
      rcases hs with h1 | h1
      · exact Or.inl h1
      · exact ih (attempt + 1) s h1
    | timeout =>
      rw [generate_embedding_go, h] at hs
      simp only [List.mem_cons] at hs
      rcases hs with h1 | h1
      · exact Or.inl h1
      · exact ih (attempt + 1) s h1
    | reqError =>
      rw [generate_embedding_go, h] at hs
      simp only [List.mem_cons] at hs
      rcases hs with h1 | h1
      · exact Or.inl h1
      · exact ih (attempt + 1) s h1
    | jsonError =>
      rw [generate_embedding_go, h] at hs
      simp only [List.mem_cons] at hs
      rcases hs with h1 | h1
      · exact Or.inl h1
      · exact ih (attempt + 1) s h1

/-- C9: each per-file job sends at most MAX_RETRIES = 3 requests with fixed
sleep back-off (every sleep is the common 1-second end-of-iteration wait or
the 5-second rate-limit wait); when every attempt in the window fails, the
job gives up and returns no embedding; and the loop over files is a filterMap
of independent per-file jobs, so one file's failure never prevents the
remaining files from being processed. -/
theorem c9_retry_bound_and_job_isolation :
    (∀ (α : Type) (resp : Nat → EmbOutcome α), requests_made resp ≤ MAX_RETRIES) ∧
    (∀ (α : Type) (resp : Nat → EmbOutcome α),
        (∀ k, 1 ≤ k → k ≤ MAX_RETRIES → (resp k).isOk = false) →
        generate_embedding resp = none) ∧
    (∀ (α : Type) (resp : Nat → EmbOutcome α) (s : Nat),
        s ∈ sleeps_made resp → s = 1 ∨ s = 5) ∧
    (∀ (α : Type) (resp : String → Nat → EmbOutcome α)
        (existing files : List String),
        process_chunks resp existing files =
          files.filterMap (fun f => process_file (resp f) existing f)) := by
  refine ⟨?_, ?_, ?_, ?_⟩
  · intro α resp
    exact generate_embedding_go_requests resp MAX_RETRIES 1
  · intro α resp hfail
    exact generate_embedding_go_none resp MAX_RETRIES 1
      (fun k hk1 hk2 => hfail k hk1 (by unfold MAX_RETRIES at *; omega))
  · intro α resp s hs
    exact generate_embedding_go_sleeps resp MAX_RETRIES 1 s hs
  · intro α resp existing files
    induction files with
    | nil => rfl
    | cons f fs ih =>
      cases h : process_file (resp f) existing f with
      | none => simp [process_chunks, List.filterMap_cons, h, ih]
      | some saved => simp [process_chunks, List.filterMap_cons, h, ih]

/-- C9 witness: a job whose every attempt times out returns no embedding. -/
theorem c9_retry_bound_and_job_isolation_witness :
    generate_embedding (fun _ => (EmbOutcome.timeout : EmbOutcome Nat)) = none :=
  c9_retry_bound_and_job_isolation.2.1 Nat (fun _ => EmbOutcome.timeout)
    (fun _ _ _ => rfl)

/-- Decidable equality for Except values, used to evaluate the embedded
functions on concrete inputs. -/
instance {ε α : Type} [DecidableEq ε] [DecidableEq α] : DecidableEq (Except ε α) :=
  fun x y =>
    match x, y with
    | Except.ok a, Except.ok b =>
      match decEq a b with
      | Decidable.isTrue h => Decidable.isTrue (h ▸ rfl)
      | Decidable.isFalse h => Decidable.isFalse (fun he => h (Except.ok.inj he))
    | Except.ok _, Except.error _ => Decidable.isFalse (fun he => Except.noConfusion he)
    | Except.error _, Except.ok _ => Decidable.isFalse (fun he => Except.noConfusion he)
    | Except.error e, Except.error f =>
      match decEq e f with
      | Decidable.isTrue h => Decidable.isTrue (h ▸ rfl)
      | Decidable.isFalse h => Decidable.isFalse (fun he => h (Except.error.inj he))

/-! ## Claim C1 -/

/-- C1 counterexample: a request whose query text mentions supergirl but
whose selected_movie field names swordfish is answered from swordfish chunks:
the selected_movie field overrides the movie mentioned in the query text, so
the claim fails as stated for requests carrying a valid selected_movie. -/
theorem c1_counterexample :
    pyContains (pyLower "tell me about supergirl") (normMovieName "supergirl") = true ∧
    selected_movies.contains "supergirl" = true ∧
    get_similar_fragments ["swordfish_chunk_0"]
      (relevant_movies_of (fun _ _ => none)
        (QueryRequest.mk "tell me about supergirl" (some "swordfish"))) =
      Except.ok ["swordfish_chunk_0"] ∧
    chunkMovie "swordfish_chunk_0" ≠ "supergirl" :=
  ⟨by decide, by decide, by decide, by decide⟩

/-- C1 amended: for every query request whose selected_movie field is absent,
empty or not a selected movie, and whose lowercased query text contains the
normalized name of exactly one of the ten selected movies, every fragment
retrieved and used to build the context is a chunk whose identifier prefix is
that movie's identifier. -/
theorem c1_query_mention_restricts_fragments
    (closeMatch : String → List String → Option String) (req : QueryRequest)
    (m : String) (similar frags : List String)
    (hsel : selectedMovieValid req = false)
    (hone : selected_movies.filter
        (fun movie => pyContains (pyLower req.query) (normMovieName movie)) = [m])
    (hok : get_similar_fragments similar (relevant_movies_of closeMatch req) =
      Except.ok frags) :
    ∀ chunk ∈ frags, chunkMovie chunk = m := by
  have hgrm : get_relevant_movies closeMatch req.query selected_movies = [m] := by
    simp only [get_relevant_movies]
    rw [hone]
    simp
  have hrel : relevant_movies_of closeMatch req = [m] := by
    cases hsm : req.selected_movie with
    | none =>
      simp only [relevant_movies_of, hsm]
      exact hgrm
    | some s =>
      have hc : (decide (s ≠ "") && selected_movies.contains (normSelected s)) = false := by
        have hv := hsel
        unfold selectedMovieValid at hv
        rw [hsm] at hv
        exact hv
      simp only [relevant_movies_of, hsm, hc]
      simpa using hgrm
  rw [hrel] at hok
  have hf := get_similar_fragments_filtered similar [m] frags (by simp) hok
  intro chunk hc
  rw [hf] at hc
  have hmem := List.mem_filter.mp (List.mem_of_mem_take hc)
  simpa using hmem.2

/-- C1 witness: the amended theorem applied to a request with no
selected_movie whose query mentions exactly swordfish, with a ranked list
containing chunks of two movies. -/
theorem c1_query_mention_restricts_fragments_witness :
    chunkMovie "swordfish_chunk_2" = "swordfish" :=
  c1_query_mention_restricts_fragments (fun _ _ => none)
    (QueryRequest.mk "what happens in swordfish" none)
    "swordfish" ["swordfish_chunk_2", "supergirl_chunk_1"] ["swordfish_chunk_2"]
    rfl (by decide) rfl "swordfish_chunk_2" (by decide)

/-! ## Claim C8 -/

/-- Plain recursive form of the context concatenation, making the
concatenation order explicit: the text of each existing fragment file
followed by a newline, in fragment-list order. -/
def contextConcat (fileText : String → Option String) : List String → String
  | [] => ""
  | f :: fs =>
    (match fileText f with
     | some txt => txt ++ "\n"
     | none => "") ++ contextConcat fileText fs

/-- Accumulator form of the prepare_context loop. -/
theorem prepare_context_foldl (fileText : String → Option String)
    (frags : List String) (acc : String) :
    frags.foldl
      (fun context fragment =>
        match fileText fragment with
        | some txt => context ++ txt ++ "\n"
        | none => context) acc =
      acc ++ contextConcat fileText frags := by
  induction frags generalizing acc with
  | nil => simp [contextConcat]
  | cons f fs ih =>
    cases hf : fileText f with
    | none =>
      simp only [List.foldl_cons, hf]
      rw [ih]
      simp [contextConcat, hf]
    | some t =>
      simp only [List.foldl_cons, hf]
      rw [ih]
      simp [contextConcat, hf, String.append_assoc]

/-- C8 counterexample: with no relevant movie identified, a ranked list whose
nearest chunk is a surfer_king chunk is reassembled with the supergirl chunk
first, because the unfiltered branch walks the fixed selected_movies list
rather than the ranking: the output is not a subsequence of the ranked
list, so the context is not concatenated in vector-search ranking order. -/
theorem c8_counterexample :
    get_similar_fragments ["surfer_king_chunk_0", "supergirl_chunk_0"] [] =
      Except.ok ["supergirl_chunk_0", "surfer_king_chunk_0"] ∧
    ¬ List.Sublist ["supergirl_chunk_0", "surfer_king_chunk_0"]
        ["surfer_king_chunk_0", "supergirl_chunk_0"] :=
  ⟨rfl, by decide⟩

/-- C8 amended: prepare_context concatenates the fragment texts in
fragment-list order; when a movie filter applied, the fragment list preserves
the vector-search ranking order (it is a subsequence of the ranked list); but
when no relevant movie was identified, the fragment list is one chunk per
movie in the fixed selected_movies order (each being that movie's
highest-ranked chunk), not in ranking order. -/
theorem c8_context_in_result_order :
    (∀ (fileText : String → Option String) (frags : List String),
        prepare_context fileText frags = contextConcat fileText frags) ∧
    (∀ (similar rm frags : List String), rm ≠ [] →
        get_similar_fragments similar rm = Except.ok frags →
        frags.Sublist similar) ∧
    (∀ (similar frags : List String),
        get_similar_fragments similar [] = Except.ok frags →
        frags = selected_movies.filterMap
          (fun movie => (similar.filter (fun chunk => chunkMovie chunk = movie)).head?)) := by
  refine ⟨?_, ?_, ?_⟩
  · intro fileText frags
    unfold prepare_context
    simpa using prepare_context_foldl fileText frags ""
  · intro similar rm frags hrm hok
    rw [get_similar_fragments_filtered similar rm frags hrm hok]
    exact List.Sublist.trans (List.take_sublist 5 _) (List.filter_sublist similar)
  · intro similar frags hok
    exact get_similar_fragments_unfiltered similar frags hok

/-- C8 witness: with the filter for swordfish in effect over a two-movie
ranked list, the retained fragments form a subsequence of the ranked list. -/
theorem c8_context_in_result_order_witness :
    List.Sublist ["swordfish_chunk_1"] ["supergirl_chunk_3", "swordfish_chunk_1"] :=
  c8_context_in_result_order.2.1 ["supergirl_chunk_3", "swordfish_chunk_1"]
    ["swordfish"] ["swordfish_chunk_1"] (by decide) rfl


/-! ## Claim C2 -/

/-- Equation of the splitter on the empty input. -/
theorem wordsAux_nil (acc : List Char) :
    wordsAux [] acc = if acc.isEmpty then [] else [acc.reverse] := rfl

/-- Equation of the splitter on a non-whitespace head. -/
theorem wordsAux_cons_nonspace (c : Char) (cs acc : List Char)
    (hc : c.isWhitespace = false) :
    wordsAux (c :: cs) acc = wordsAux cs (c :: acc) := by
  simp [wordsAux, hc]

/-- Equation of the splitter on a whitespace head. -/
theorem wordsAux_cons_space (c : Char) (cs acc : List Char)
    (hc : c.isWhitespace = true) :
    wordsAux (c :: cs) acc = (if acc.isEmpty then [] else [acc.reverse]) ++ wordsAux cs [] := by
  simp [wordsAux, hc]

/-- Words the terminal emission produces are non-empty and whitespace-free. -/
theorem wordsAux_emit_wf (acc : List Char) (hacc : ∀ c ∈ acc, c.isWhitespace = false) :
    ∀ w ∈ (if acc.isEmpty then [] else [(acc.reverse : List Char)]),
      w ≠ [] ∧ ∀ c ∈ w, c.isWhitespace = false := by
  intro w hw
  by_cases he : acc = []
  · simp [he] at hw
  · rw [if_neg (by simpa [List.isEmpty_iff] using he), List.mem_singleton] at hw
    subst hw
    refine ⟨by simpa using he, ?_⟩
    intro c hc
    exact hacc c (List.mem_reverse.mp hc)

/-- Every word the splitter emits is non-empty and whitespace-free, provided
the accumulator holds only non-whitespace characters. -/
theorem wordsAux_wf (s : List Char) :
    ∀ acc, (∀ c ∈ acc, c.isWhitespace = false) →
      ∀ w ∈ wordsAux s acc, w ≠ [] ∧ ∀ c ∈ w, c.isWhitespace = false := by
  induction s with
  | nil =>
    intro acc hacc w hw
    rw [wordsAux_nil] at hw
    exact wordsAux_emit_wf acc hacc w hw
  | cons c cs ih =>
    intro acc hacc w hw
    by_cases hws : c.isWhitespace
    · rw [wordsAux_cons_space c cs acc hws, List.mem_append] at hw
      rcases hw with hw | hw
      · exact wordsAux_emit_wf acc hacc w hw
      · exact ih [] (by simp) w hw
    · rw [wordsAux_cons_nonspace c cs acc (by simpa using hws)] at hw
      refine ih (c :: acc) ?_ w hw
      intro d hd
      rcases List.mem_cons.mp hd with h | h
      · subst h; simpa using hws
      · exact hacc d h

/-- Run of the splitter over a whitespace-free word: it is folded into the
accumulator and emitted at the end. -/
theorem wordsAux_word (w : List Char) :
    ∀ acc, (∀ c ∈ w, c.isWhitespace = false) → (acc ≠ [] ∨ w ≠ []) →
      wordsAux w acc = [acc.reverse ++ w] := by
  induction w with
  | nil =>
    intro acc _ hne
    have hacc : acc ≠ [] := by
      rcases hne with h | h
      · exact h
      · exact absurd rfl h
    rw [wordsAux_nil, if_neg (by simpa [List.isEmpty_iff] using hacc)]
    simp
  | cons c w' ih =>
    intro acc hw hne
    have hc : c.isWhitespace = false := hw c (List.mem_cons_self c w')
    rw [wordsAux_cons_nonspace c w' acc hc,
      ih (c :: acc) (fun d hd => hw d (List.mem_cons_of_mem c hd)) (Or.inl (by simp))]
    simp

/-- The splitter consumes one whitespace-terminated word and restarts with an
empty accumulator on the rest. -/
theorem wordsAux_append_sep (sep : Char) (hsep : sep.isWhitespace = true)
    (w : List Char) :
    ∀ acc rest, (∀ c ∈ w, c.isWhitespace = false) → (acc ≠ [] ∨ w ≠ []) →
      wordsAux (w ++ sep :: rest) acc = (acc.reverse ++ w) :: wordsAux rest [] := by
  induction w with
  | nil =>
    intro acc rest _ hne
    have hacc : acc ≠ [] := by
      rcases hne with h | h
      · exact h
      · exact absurd rfl h
    rw [List.nil_append, wordsAux_cons_space sep rest acc hsep,
      if_neg (by simpa [List.isEmpty_iff] using hacc)]
    simp
  | cons c w' ih =>
    intro acc rest hw hne
    have hc : c.isWhitespace = false := hw c (List.mem_cons_self c w')
    rw [List.cons_append, wordsAux_cons_nonspace c (w' ++ sep :: rest) acc hc,
      ih (c :: acc) rest (fun d hd => hw d (List.mem_cons_of_mem c hd)) (Or.inl (by simp))]
    simp

/-- Splitting undoes joining on a list of non-empty whitespace-free words. -/
theorem wordsC_joinC (ws : List (List Char))
    (hwf : ∀ w ∈ ws, w ≠ [] ∧ ∀ c ∈ w, c.isWhitespace = false) :
    wordsC (joinC ws) = ws := by
  induction ws with
  | nil => rfl
  | cons w ws ih =>
    cases ws with
    | nil =>
      have hw := hwf w (List.mem_cons_self w [])
      unfold wordsC
      rw [show joinC [w] = w from rfl, wordsAux_word w [] hw.2 (Or.inr hw.1)]
      simp
    | cons x ws' =>
      have hw := hwf w (List.mem_cons_self w _)
      unfold wordsC
      rw [show joinC (w :: x :: ws') = w ++ ' ' :: joinC (x :: ws') from rfl,
        wordsAux_append_sep ' ' (by decide) w [] (joinC (x :: ws')) hw.2 (Or.inr hw.1)]
      simp only [List.reverse_nil, List.nil_append, List.cons.injEq, true_and]
      exact ih (fun v hv => hwf v (List.mem_cons_of_mem w hv))

/-- Words of any split are non-empty and whitespace-free. -/
theorem wordsC_wf (s : List Char) :
    ∀ w ∈ wordsC s, w ≠ [] ∧ ∀ c ∈ w, c.isWhitespace = false :=
  wordsAux_wf s [] (by simp)

/-- C2 amended: for every context string, truncate_context with
max_tokens = 2000 yields a string of at most 2000 whitespace-separated words
whose word sequence is a prefix of the untruncated context's word sequence
(the truncated string itself need not be a character-level prefix of the
untruncated context, because the kept words are re-joined with single
spaces). -/
theorem c2_truncation_word_budget_and_word_seq (context : String) :
    (wordsC (truncate_context context 2000).data).length ≤ 2000 ∧
    (wordsC (truncate_context context 2000).data) <+: wordsC context.data := by
  unfold truncate_context
  by_cases h : (wordsC context.data).length > 2000
  · rw [if_pos h]
    have hwf : ∀ w ∈ (wordsC context.data).take 2000,
        w ≠ [] ∧ ∀ c ∈ w, c.isWhitespace = false :=
      fun w hw => wordsC_wf context.data w (List.mem_of_mem_take hw)
    have hrt : wordsC (String.mk (joinC ((wordsC context.data).take 2000))).data =
        (wordsC context.data).take 2000 := wordsC_joinC _ hwf
    rw [hrt]
    exact ⟨ List.length_take_le 2000 _, List.take_prefix 2000 _⟩
  · rw [if_neg h]
    exact ⟨by omega, List.prefix_refl _⟩

/-- Context string with 2001 words whose first separator is a newline, used
to exhibit that truncation is not a character-level prefix. -/
def c2ctx : String := String.mk ('a' :: '\n' :: joinC (List.replicate 2000 ['b']))

/-- C2 counterexample: truncating a 2001-word context whose first separator
is a newline re-joins the first 2000 words with single spaces, so the result
is not a prefix of the untruncated context string (they differ at the second
character, space versus newline). -/
theorem c2_counterexample :
    ¬ ((truncate_context c2ctx 2000).data <+: c2ctx.data) := by
  have hwf : ∀ w ∈ List.replicate 2000 (['b'] : List Char),
      w ≠ [] ∧ ∀ c ∈ w, c.isWhitespace = false := by
    intro w hw
    rw [List.eq_of_mem_replicate hw]
    exact ⟨by simp, by intro c hc; rw [List.mem_singleton.mp hc]; decide⟩
  have h1 : wordsC c2ctx.data = ['a'] :: List.replicate 2000 ['b'] := by
    show wordsC (['a'] ++ '\n' :: joinC (List.replicate 2000 ['b'])) = _
    unfold wordsC
    rw [wordsAux_append_sep '\n' (by decide) ['a'] [] _
      (by intro c hc; rw [List.mem_singleton.mp hc]; decide) (Or.inr (by simp))]
    simp only [List.reverse_nil, List.nil_append, List.cons.injEq, true_and]
    exact wordsC_joinC _ hwf
  have h3 : truncate_context c2ctx 2000 =
      String.mk (joinC (['a'] :: List.replicate 1999 ['b'])) := by
    unfold truncate_context
    rw [h1]
    rw [if_pos (by rw [List.length_cons, List.length_replicate]; omega)]
    have ht : List.take 2000 ((['a'] : List Char) :: List.replicate 2000 ['b']) =
        ['a'] :: List.take 1999 (List.replicate 2000 ['b']) := List.take_succ_cons
    rw [ht, List.take_replicate]
    norm_num
  intro hpre
  rw [h3] at hpre
  have h4 : (String.mk (joinC (['a'] :: List.replicate 1999 ['b']))).data =
      'a' :: ' ' :: joinC (List.replicate 1999 ['b']) := by
    show joinC (['a'] :: List.replicate 1999 ['b']) = _
    rw [show List.replicate 1999 (['b'] : List Char) = ['b'] :: List.replicate 1998 ['b']
      from List.replicate_succ ['b'] 1998]
    rfl
  have hd : c2ctx.data = 'a' :: '\n' :: joinC (List.replicate 2000 ['b']) := rfl
  rw [h4, hd] at hpre
  rcases hpre with ⟨t, ht⟩
  rw [List.cons_append, List.cons_append] at ht
  injection ht with e1 ht2
  injection ht2 with e2 _
  exact absurd e2 (by decide)
